import Mathlib

/-!
Verification of the media-tracker backend (`server.py`) against its
natural-language specification.

The embedding is shallow: the Mongo collections become Lean lists with
first-match semantics (`find_one` is `List.find?`, `update_one` updates the
first match, `delete_one` erases the first match); the FastAPI handlers become
pure functions threading an explicit `DB` state; `HTTPException` becomes the
error side of `Except` (or an explicit error component), carrying the status
code and detail string verbatim from the source.  Nondeterministic inputs of
the source — `secrets.token_urlsafe(32)`, `uuid.uuid4()`, bcrypt hashing,
JWT signing and the current time — are passed in as explicit oracle
parameters, and the bcrypt check `pwd_context.verify` is an abstract function
parameter of `login`.
-/

namespace MediaTracker

/-- An `HTTPException` as raised by the handlers: status code plus detail. -/
structure HTTPError where
  status : Nat
  detail : String
deriving DecidableEq, Repr

/-- `class User(BaseModel)` of `server.py` (lines 74-82).  `created_at`
(a `datetime`) is modelled as a `Nat` timestamp. -/
structure User where
  id : String
  email : String
  name : String
  hashed_password : String
  is_verified : Bool
  verification_token : Option String
  created_at : Nat
deriving DecidableEq, Repr

/-- `class UserResponse(BaseModel)` of `server.py` (lines 93-97): the
public-safe projection returned by login and `/auth/me`. -/
structure UserResponse where
  id : String
  email : String
  name : String
  is_verified : Bool
deriving DecidableEq, Repr

/-- `class Token(BaseModel)` of `server.py` (lines 99-102). -/
structure Token where
  access_token : String
  token_type : String
  user : UserResponse
deriving DecidableEq, Repr

/-- `class MediaItem(BaseModel)` of `server.py` (lines 104-114). -/
structure MediaItem where
  id : String
  user_id : String
  title : String
  type : String
  status : String
  current : Int
  total : Int
  created_at : Nat
  updated_at : Nat
deriving DecidableEq, Repr

/-- `class MediaItemUpdate(BaseModel)` of `server.py` (lines 123-128): all
fields optional; `none` models a field absent from the request body (pydantic
`exclude_unset`).  An explicitly supplied JSON `null` is not modelled: on the
required `str`/`int` fields it would fail the response re-validation, and no
claim concerns it. -/
structure MediaItemUpdate where
  title : Option String
  type : Option String
  status : Option String
  current : Option Int
  total : Option Int
deriving DecidableEq, Repr

/-- The document store: the `users` and `media` Mongo collections, as lists.
`find_one` / `update_one` / `delete_one` act on the first list element
matching the filter. -/
structure DB where
  users : List User
  media : List MediaItem
deriving DecidableEq, Repr

/-- Python truthiness of an optional string (`if not user_id`,
`bool(os.getenv(...))`): `None` and `""` are falsy. -/
def pyTruthy : Option String → Bool
  | none => false
  | some s => !(s == "")

/-- Mongo `update_one`: rewrite the first element matching the filter `p`
with `f`, leave everything else unchanged. -/
def updateFirst (p : α → Bool) (f : α → α) : List α → List α
  | [] => []
  | x :: xs => if p x then f x :: xs else x :: updateFirst p f xs

/-- `signup` (`POST /api/auth/signup`, `server.py` lines 204-225).
Oracle inputs: `hashed` is `hash_password(password)`, `tok` is the fresh
`secrets.token_urlsafe(32)` verification token, `uid` the generated uuid,
`now` the creation timestamp.  The email dispatch is fire-and-forget and has
no effect on the store, so it does not appear.  Returns the response (error
`400 "Email already registered"` on duplicate email) and the resulting
store. -/
def signup (st : DB) (email name hashed tok uid : String) (now : Nat) :
    Except HTTPError (String × String) × DB :=
  match st.users.find? (fun u => u.email == email) with
  | some _ => (.error ⟨400, "Email already registered"⟩, st)
  | none =>
    let u : User :=
      { id := uid, email := email, name := name, hashed_password := hashed,
        is_verified := false, verification_token := some tok, created_at := now }
    (.ok ("Registration successful. Check your email!", email),
     { st with users := st.users ++ [u] })

/-- `verify_email` (`GET /api/auth/verify-email`, `server.py` lines 227-236):
look up the user by `verification_token`; on a miss raise
`400 "Invalid or expired token"`, on a hit set `is_verified = True` and
`verification_token = None` in one update. -/
def verify_email (st : DB) (token : String) : Except HTTPError String × DB :=
  match st.users.find? (fun u => u.verification_token == some token) with
  | none => (.error ⟨400, "Invalid or expired token"⟩, st)
  | some _ =>
    let users' :=
      updateFirst (fun u => u.verification_token == some token)
        (fun u => { u with is_verified := true, verification_token := none })
        st.users
    (.ok "Email verified successfully!", { st with users := users' })

/-- `login` (`POST /api/auth/login`, `server.py` lines 238-254).
`vp` is the abstract `verify_password` (bcrypt) collaborator; `issued` is the
JWT that `create_access_token({"sub": user.id, "email": user.email})` would
produce.  Checks run in source order: user lookup, password, verified
flag. -/
def login (vp : String → String → Bool) (st : DB) (email password issued : String) :
    Except HTTPError Token :=
  match st.users.find? (fun u => u.email == email) with
  | none => .error ⟨401, "Invalid email or password"⟩
  | some u =>
    if !(vp password u.hashed_password) then .error ⟨401, "Invalid email or password"⟩
    else if !u.is_verified then .error ⟨403, "Verify your email first"⟩
    else .ok { access_token := issued, token_type := "bearer",
               user := { id := u.id, email := u.email, name := u.name,
                         is_verified := u.is_verified } }

/-- Outcome of `jwt.decode(token, SECRET_KEY, algorithms=[ALGORITHM])` in
`get_current_user`: the library raises `ExpiredSignatureError` when the
embedded expiry has passed, `InvalidTokenError` when the signature is
malformed or does not verify, and otherwise yields a payload whose
`payload.get("sub")` is modelled as an optional string. -/
inductive DecodeResult where
  | expired : DecodeResult
  | invalid : DecodeResult
  | payload : Option String → DecodeResult
deriving DecidableEq, Repr

/-- `get_current_user` (`server.py` lines 143-160), the session resolver used
by every protected route.  The JWT decode outcome is the explicit input `d`;
the falsy check `if not user_id` rejects both a missing and an empty
`"sub"` claim.  On success the user record is freshly loaded from the
store by id. -/
def get_current_user (st : DB) (d : DecodeResult) : Except HTTPError User :=
  match d with
  | .expired => .error ⟨401, "Token expired"⟩
  | .invalid => .error ⟨401, "Invalid token"⟩
  | .payload sub =>
    if !(pyTruthy sub) then .error ⟨401, "Invalid token payload"⟩
    else
      match st.users.find? (fun u => u.id == sub.getD "") with
      | none => .error ⟨401, "User not found"⟩
      | some u => .ok u

/-- Apply the `$set` of `update_media`: the fields present in the request
body (`model_dump(exclude_unset=True)`) overwrite the stored ones, and
`updated_at` is set to the current time.  `id`, `user_id` and `created_at`
are not in `MediaItemUpdate` and cannot be touched. -/
def applyUpdate (m : MediaItem) (upd : MediaItemUpdate) (now : Nat) : MediaItem :=
  { m with
    title := upd.title.getD m.title,
    type := upd.type.getD m.type,
    status := upd.status.getD m.status,
    current := upd.current.getD m.current,
    total := upd.total.getD m.total,
    updated_at := now }

/-- `update_media` (`PUT /api/media/{media_id}`, `server.py` lines 280-293):
find the item by `{"id": media_id, "user_id": current_user.id}`; a miss
(nonexistent item or foreign owner alike) raises `404 "Media not found"`.
On a hit, `$set` the supplied fields plus a fresh `updated_at`, then re-fetch
by `{"id": media_id}` alone and return that item.  The source would crash
(HTTP 500) if the re-fetch missed; that unreachable branch is the
`⟨500, "Internal Server Error"⟩` arm. -/
def update_media (st : DB) (media_id : String) (upd : MediaItemUpdate)
    (uid : String) (now : Nat) : Except HTTPError MediaItem × DB :=
  match st.media.find? (fun m => m.id == media_id && m.user_id == uid) with
  | none => (.error ⟨404, "Media not found"⟩, st)
  | some _ =>
    let media' := updateFirst (fun m => m.id == media_id && m.user_id == uid)
      (fun m => applyUpdate m upd now) st.media
    match media'.find? (fun m => m.id == media_id) with
    | none => (.error ⟨500, "Internal Server Error"⟩, { st with media := media' })
    | some m2 => (.ok m2, { st with media := media' })

/-- `delete_media` (`DELETE /api/media/{media_id}`, `server.py` lines
295-300): `delete_one({"id": media_id, "user_id": current_user.id})` removes
the first match; `deleted_count == 0` raises `404 "Media not found"`.  When
nothing matches, `List.eraseP` leaves the list unchanged, so the store is
returned as-is in the error case. -/
def delete_media (st : DB) (media_id uid : String) : Except HTTPError String × DB :=
  match st.media.find? (fun m => m.id == media_id && m.user_id == uid) with
  | none => (.error ⟨404, "Media not found"⟩, st)
  | some _ =>
    (.ok "Media deleted successfully",
     { st with media := st.media.eraseP (fun m => m.id == media_id && m.user_id == uid) })

/-- `resend_verification` (`POST /api/auth/resend-verification`, `server.py`
lines 328-355).  `body_email` is `email.get("email")` from the request dict
(falsy → `400 "Email is required"`); `new_token` is the fresh
`secrets.token_urlsafe(32)`.  A missing user raises `404 "User not found"`;
an already-verified user short-circuits with no write; otherwise the first
user with that email gets the new token. -/
def resend_verification (st : DB) (body_email : Option String) (new_token : String) :
    Except HTTPError String × DB :=
  if !(pyTruthy body_email) then (.error ⟨400, "Email is required"⟩, st)
  else
    match st.users.find? (fun u => u.email == body_email.getD "") with
    | none => (.error ⟨404, "User not found"⟩, st)
    | some u =>
      if u.is_verified then (.ok "Email is already verified", st)
      else
        let users' :=
          updateFirst (fun v => v.email == body_email.getD "")
            (fun v => { v with verification_token := some new_token })
            st.users
        (.ok "Verification email resent successfully", { st with users := users' })

/-- The process environment read by `/debug/env` (`server.py` lines 317-326):
each entry is `os.getenv(...)`, `none` when unset. -/
structure Env where
  mongo_url : Option String
  db_name : Option String
  email_username : Option String
  email_password : Option String
  frontend_url : Option String
  secret_key : Option String
deriving DecidableEq, Repr

/-- The JSON body returned by `GET /debug/env`. -/
structure DebugEnvResponse where
  mongo : Bool
  db_name : Option String
  email_user : Option String
  email_password : String
  frontend : Option String
  secret_key : String
deriving DecidableEq, Repr

/-- `debug_env` (`GET /debug/env`, `server.py` lines 317-326).  The route is
registered directly on `app` with no `Depends(security)`, so the handler
takes no credentials — it is a function of the environment alone and always
succeeds. -/
def debug_env (e : Env) : DebugEnvResponse :=
  { mongo := pyTruthy e.mongo_url,
    db_name := e.db_name,
    email_user := e.email_username,
    email_password := if pyTruthy e.email_password then "SET" else "MISSING",
    frontend := e.frontend_url,
    secret_key := if pyTruthy e.secret_key then "SET" else "MISSING" }

/-- The states of the user store reachable through the registration workflow
operations (`signup`, `verify_email`, `resend_verification`), starting from
an empty store; every oracle input (tokens, ids, hashes, request bodies) is
arbitrary. -/
inductive Reachable : DB → Prop where
  | init : Reachable ⟨[], []⟩
  | signup_step (st : DB) (e n hp tok uid : String) (now : Nat) :
      Reachable st → Reachable (signup st e n hp tok uid now).2
  | verify_step (st : DB) (t : String) :
      Reachable st → Reachable (verify_email st t).2
  | resend_step (st : DB) (b : Option String) (tok : String) :
      Reachable st → Reachable (resend_verification st b tok).2

/-- The C1 invariant on a single user record: exactly one of
`is_verified == true` and `verification_token` present. -/
def userInv (u : User) : Prop := u.is_verified ≠ u.verification_token.isSome

/-- Concrete bcrypt stand-in used only to instantiate theorems at concrete
inputs: a password matches a hash iff the hash is `"h" ++ password`. -/
def vpModel (password hashed : String) : Bool := hashed == "h" ++ password

/-- Fixture: Alice freshly signed up (unverified, token `"t1"`). -/
def aliceUnverified : User :=
  { id := "u1", email := "a@x", name := "Alice", hashed_password := "hpw",
    is_verified := false, verification_token := some "t1", created_at := 0 }

/-- Fixture: Alice after verification (verified, token cleared). -/
def aliceVerified : User :=
  { id := "u1", email := "a@x", name := "Alice", hashed_password := "hpw",
    is_verified := true, verification_token := none, created_at := 0 }

/-- Fixture store holding only unverified Alice. -/
def dbUnverified : DB := ⟨[aliceUnverified], []⟩

/-- Fixture store holding only verified Alice. -/
def dbVerified : DB := ⟨[aliceVerified], []⟩

/-- Fixture media item owned by Alice (`u1`). -/
def itemU1 : MediaItem :=
  { id := "m1", user_id := "u1", title := "Dune", type := "book",
    status := "plan", current := 0, total := 10, created_at := 0, updated_at := 0 }

/-- Fixture store with verified Alice and her one media item. -/
def dbMedia : DB := ⟨[aliceVerified], [itemU1]⟩

/-- Fixture partial update supplying only `title` and `status`. -/
def updSample : MediaItemUpdate :=
  { title := some "Dune II", type := none, status := some "done",
    current := none, total := none }

/-- Fixture: the store right after `signup` of Alice (token `"t1"`). -/
def c5db0 : DB := (signup ⟨[], []⟩ "a@x" "Alice" "hpw" "t1" "u1" 0).2

/-- Fixture: the store after Alice's email has been verified with `"t1"`. -/
def c5db1 : DB := (verify_email c5db0 "t1").2


section Lemmas

variable {α : Type _}

theorem updateFirst_cons_pos {p : α → Bool} {f : α → α} {a : α} {xs : List α}
    (h : p a = true) : updateFirst p f (a :: xs) = f a :: xs := by
  simp [updateFirst, h]

theorem updateFirst_cons_neg {p : α → Bool} {f : α → α} {a : α} {xs : List α}
    (h : p a = false) : updateFirst p f (a :: xs) = a :: updateFirst p f xs := by
  simp [updateFirst, h]

theorem mem_updateFirst_find {p : α → Bool} {f : α → α} :
    ∀ {l : List α} {u y : α}, l.find? p = some u → y ∈ updateFirst p f l →
      y ∈ l ∨ y = f u := by
  intro l
  induction l with
  | nil => intro u y h _; simp at h
  | cons a xs ih =>
    intro u y hfind hy
    cases hpa : p a with
    | true =>
      rw [List.find?_cons_of_pos _ hpa] at hfind
      injection hfind with hu
      subst hu
      rw [updateFirst_cons_pos hpa] at hy
      rcases List.mem_cons.mp hy with h | h
      · right; exact h
      · left; exact List.mem_cons_of_mem _ h
    | false =>
      rw [List.find?_cons_of_neg _ (by simp [hpa])] at hfind
      rw [updateFirst_cons_neg hpa] at hy
      rcases List.mem_cons.mp hy with h | h
      · left; simp [h]
      · rcases ih hfind h with h' | h'
        · left; exact List.mem_cons_of_mem _ h'
        · right; exact h'

theorem updated_mem_updateFirst {p : α → Bool} {f : α → α} :
    ∀ {l : List α} {u : α}, l.find? p = some u → f u ∈ updateFirst p f l := by
  intro l
  induction l with
  | nil => intro u h; simp at h
  | cons a xs ih =>
    intro u hfind
    cases hpa : p a with
    | true =>
      rw [List.find?_cons_of_pos _ hpa] at hfind
      injection hfind with hu
      subst hu
      rw [updateFirst_cons_pos hpa]
      exact List.mem_cons_self _ _
    | false =>
      rw [List.find?_cons_of_neg _ (by simp [hpa])] at hfind
      rw [updateFirst_cons_neg hpa]
      exact List.mem_cons_of_mem _ (ih hfind)

theorem find_p_updateFirst {p : α → Bool} {f : α → α} :
    ∀ {l : List α} {u : α}, l.find? p = some u →
      (∀ x, p x = true → p (f x) = true) →
      (updateFirst p f l).find? p = some (f u) := by
  intro l
  induction l with
  | nil => intro u h; simp at h
  | cons a xs ih =>
    intro u hfind hf
    cases hpa : p a with
    | true =>
      rw [List.find?_cons_of_pos _ hpa] at hfind
      injection hfind with hu
      subst hu
      rw [updateFirst_cons_pos hpa]
      exact List.find?_cons_of_pos _ (hf _ hpa)
    | false =>
      rw [List.find?_cons_of_neg _ (by simp [hpa])] at hfind
      rw [updateFirst_cons_neg hpa]
      rw [List.find?_cons_of_neg _ (by simp [hpa])]
      exact ih hfind hf

theorem find_q_none_after_updateFirst {p q : α → Bool} {f : α → α} :
    ∀ {l : List α} {u : α}, l.find? p = some u → q u = true →
      l.countP q ≤ 1 → (∀ x, q (f x) = false) →
      (updateFirst p f l).find? q = none := by
  intro l
  induction l with
  | nil => intro u h; simp at h
  | cons a xs ih =>
    intro u hfind hqu hcnt hfq
    cases hpa : p a with
    | true =>
      rw [List.find?_cons_of_pos _ hpa] at hfind
      injection hfind with hu
      subst hu
      have hzero : xs.countP q = 0 := by
        rw [List.countP_cons] at hcnt
        simp only [hqu, if_true] at hcnt
        omega
      rw [updateFirst_cons_pos hpa, List.find?_eq_none]
      intro x hx
      rcases List.mem_cons.mp hx with h | h
      · subst h; simp [hfq]
      · have := (List.countP_eq_zero).mp hzero x h
        simp [this]
    | false =>
      rw [List.find?_cons_of_neg _ (by simp [hpa])] at hfind
      have hqa : q a = false := by
        cases h : q a
        · rfl
        · exfalso
          have humem : u ∈ xs := List.mem_of_find?_eq_some hfind
          have hpos : 0 < xs.countP q := List.countP_pos_iff.mpr ⟨u, humem, hqu⟩
          rw [List.countP_cons] at hcnt
          simp only [h, if_true] at hcnt
          omega
      have hcnt' : xs.countP q ≤ 1 := by
        rw [List.countP_cons] at hcnt
        simp only [hqa] at hcnt
        omega
      rw [updateFirst_cons_neg hpa]
      rw [List.find?_cons_of_neg _ (by simp [hqa])]
      exact ih hfind hqu hcnt' hfq

theorem find_conj_of_find {p q : α → Bool} :
    ∀ {l : List α} {m : α}, l.find? p = some m → q m = true →
      l.find? (fun x => p x && q x) = some m := by
  intro l
  induction l with
  | nil => intro m h; simp at h
  | cons a xs ih =>
    intro m hfind hq
    cases hpa : p a with
    | true =>
      rw [List.find?_cons_of_pos _ hpa] at hfind
      injection hfind with hm
      subst hm
      exact List.find?_cons_of_pos _ (by simp [hpa, hq])
    | false =>
      rw [List.find?_cons_of_neg _ (by simp [hpa])] at hfind
      rw [List.find?_cons_of_neg _ (by simp [hpa])]
      exact ih hfind hq

theorem find_conj_none {q p2 : α → Bool} :
    ∀ {l : List α} {m : α}, l.find? q = some m → l.countP q ≤ 1 →
      p2 m = false → l.find? (fun x => q x && p2 x) = none := by
  intro l
  induction l with
  | nil => intro m h; simp at h
  | cons a xs ih =>
    intro m hfind hcnt hp2
    cases hqa : q a with
    | true =>
      rw [List.find?_cons_of_pos _ hqa] at hfind
      injection hfind with hm
      subst hm
      have hzero : xs.countP q = 0 := by
        rw [List.countP_cons] at hcnt
        simp only [hqa, if_true] at hcnt
        omega
      rw [List.find?_eq_none]
      intro x hx
      rcases List.mem_cons.mp hx with h | h
      · subst h; simp [hp2]
      · have := (List.countP_eq_zero).mp hzero x h
        simp [this]
    | false =>
      rw [List.find?_cons_of_neg _ (by simp [hqa])] at hfind
      have hcnt' : xs.countP q ≤ 1 := by
        rw [List.countP_cons] at hcnt
        simp only [hqa] at hcnt
        omega
      rw [List.find?_cons_of_neg _ (by simp [hqa])]
      exact ih hfind hcnt' hp2

theorem find_conj_none_of_none {q p2 : α → Bool} {l : List α}
    (h : l.find? q = none) : l.find? (fun x => q x && p2 x) = none := by
  rw [List.find?_eq_none] at h ⊢
  intro x hx
  simp [h x hx]

theorem refetch_updateFirst {p q : α → Bool} {f : α → α} :
    ∀ {l : List α} {m : α}, l.find? q = some m → p m = true →
      (∀ x, p x = true → q x = true) → q (f m) = true →
      (updateFirst p f l).find? q = some (f m) := by
  intro l
  induction l with
  | nil => intro m h; simp at h
  | cons a xs ih =>
    intro m hfind hpm himp hqf
    cases hqa : q a with
    | true =>
      rw [List.find?_cons_of_pos _ hqa] at hfind
      injection hfind with hm
      subst hm
      rw [updateFirst_cons_pos hpm]
      exact List.find?_cons_of_pos _ hqf
    | false =>
      have hpa : p a = false := by
        cases h : p a
        · rfl
        · exact absurd (himp a h) (by simp [hqa])
      rw [List.find?_cons_of_neg _ (by simp [hqa])] at hfind
      rw [updateFirst_cons_neg hpa]
      rw [List.find?_cons_of_neg _ (by simp [hqa])]
      exact ih hfind hpm himp hqf

end Lemmas


/-- C2: for the (unique) holder of verification token `t`, `verify_email t`
succeeds, stores the user verified with the token cleared, and an immediately
repeated `verify_email t` fails with `400 "Invalid or expired token"`: the
token is single-use because clearing the field removes the lookup key.
Token uniqueness (`hcnt`) is the freshness idealisation of
`secrets.token_urlsafe(32)`. -/
theorem verify_email_single_use (st : DB) (t : String) (u : User)
    (hfind : st.users.find? (fun v => v.verification_token == some t) = some u)
    (hcnt : st.users.countP (fun v => v.verification_token == some t) ≤ 1) :
    (verify_email st t).1 = .ok "Email verified successfully!" ∧
    ({ u with is_verified := true, verification_token := none } : User) ∈
      (verify_email st t).2.users ∧
    (verify_email st t).2.users.find? (fun v => v.verification_token == some t) = none ∧
    (verify_email (verify_email st t).2 t).1 = .error ⟨400, "Invalid or expired token"⟩ := by
  have hqu := List.find?_some hfind
  have hstate : (verify_email st t).2.users =
      updateFirst (fun v => v.verification_token == some t)
        (fun v => { v with is_verified := true, verification_token := none })
        st.users := by
    simp [verify_email, hfind]
  have hnone : (verify_email st t).2.users.find?
      (fun v => v.verification_token == some t) = none := by
    rw [hstate]
    exact find_q_none_after_updateFirst hfind hqu hcnt (fun x => by simp)
  refine ⟨by simp [verify_email, hfind], ?_, hnone, ?_⟩
  · rw [hstate]
    exact updated_mem_updateFirst hfind
  · generalize hX : (verify_email st t).2 = st2
    rw [hX] at hnone
    simp [verify_email, hnone]

/-- C2 witness: one user holding `"t1"`; verifying consumes the token and a
replay fails. -/
theorem verify_email_single_use_witness :
    (verify_email dbUnverified "t1").1 = .ok "Email verified successfully!" ∧
    ({ aliceUnverified with is_verified := true, verification_token := none } : User) ∈
      (verify_email dbUnverified "t1").2.users ∧
    (verify_email dbUnverified "t1").2.users.find?
      (fun v => v.verification_token == some "t1") = none ∧
    (verify_email (verify_email dbUnverified "t1").2 "t1").1 =
      .error ⟨400, "Invalid or expired token"⟩ :=
  verify_email_single_use dbUnverified "t1" aliceUnverified (by decide) (by decide)

/-- C3: the login failure for an unknown email and the failure for a known
email with a failing password check are the very same response
(`401 "Invalid email or password"`), so the response does not reveal whether
the account exists. -/
theorem login_indistinguishable_failure (vp : String → String → Bool) (st : DB)
    (e1 e2 p1 p2 t1 t2 : String) (u : User)
    (h1 : st.users.find? (fun v => v.email == e1) = none)
    (h2 : st.users.find? (fun v => v.email == e2) = some u)
    (h3 : vp p2 u.hashed_password = false) :
    login vp st e1 p1 t1 = .error ⟨401, "Invalid email or password"⟩ ∧
    login vp st e2 p2 t2 = .error ⟨401, "Invalid email or password"⟩ ∧
    login vp st e1 p1 t1 = login vp st e2 p2 t2 := by
  have hA : login vp st e1 p1 t1 = .error ⟨401, "Invalid email or password"⟩ := by
    simp [login, h1]
  have hB : login vp st e2 p2 t2 = .error ⟨401, "Invalid email or password"⟩ := by
    simp [login, h2, h3]
  exact ⟨hA, hB, hA.trans hB.symm⟩

/-- C3 witness: no user has email `"zz"`, Alice exists but `vpModel` rejects
the wrong password; both logins answer identically. -/
theorem login_indistinguishable_failure_witness :
    login vpModel dbVerified "zz" "pw" "tok" =
      .error ⟨401, "Invalid email or password"⟩ ∧
    login vpModel dbVerified "a@x" "wrong" "tok" =
      .error ⟨401, "Invalid email or password"⟩ ∧
    login vpModel dbVerified "zz" "pw" "tok" =
      login vpModel dbVerified "a@x" "wrong" "tok" :=
  login_indistinguishable_failure vpModel dbVerified "zz" "a@x" "pw" "wrong"
    "tok" "tok" aliceVerified (by decide) (by decide) (by decide)

/-- C4: for an unverified user, login with the correct password fails with
`403 "Verify your email first"` and never yields a token, while login with a
wrong password fails with `401 "Invalid email or password"`: the verified
check runs strictly after the password check. -/
theorem login_unverified_behavior (vp : String → String → Bool) (st : DB)
    (e pGood pBad tG tB : String) (u : User)
    (hfind : st.users.find? (fun v => v.email == e) = some u)
    (hunv : u.is_verified = false)
    (hok : vp pGood u.hashed_password = true)
    (hbad : vp pBad u.hashed_password = false) :
    login vp st e pGood tG = .error ⟨403, "Verify your email first"⟩ ∧
    (∀ tk : Token, login vp st e pGood tG ≠ .ok tk) ∧
    login vp st e pBad tB = .error ⟨401, "Invalid email or password"⟩ := by
  have hA : login vp st e pGood tG = .error ⟨403, "Verify your email first"⟩ := by
    simp [login, hfind, hok, hunv]
  have hC : login vp st e pBad tB = .error ⟨401, "Invalid email or password"⟩ := by
    simp [login, hfind, hbad]
  exact ⟨hA, fun tk h => by rw [hA] at h; exact Except.noConfusion h, hC⟩

/-- C4 witness: unverified Alice with the right password gets the 403, with a
wrong password the generic 401. -/
theorem login_unverified_behavior_witness :
    login vpModel dbUnverified "a@x" "pw" "tok" =
      .error ⟨403, "Verify your email first"⟩ ∧
    (∀ tk : Token, login vpModel dbUnverified "a@x" "pw" "tok" ≠ .ok tk) ∧
    login vpModel dbUnverified "a@x" "oops" "tok" =
      .error ⟨401, "Invalid email or password"⟩ :=
  login_unverified_behavior vpModel dbUnverified "a@x" "pw" "oops" "tok" "tok"
    aliceUnverified (by decide) (by decide) (by decide) (by decide)

/-- C7: `get_current_user` maps an expired signature to
`401 "Token expired"`, a bad signature to `401 "Invalid token"`, a payload
without a usable `sub` claim to `401 "Invalid token payload"`, an unknown
user id to `401 "User not found"`, and on success returns exactly the user
record currently in the store under that id. -/
theorem resolve_session_contract (st : DB) (uid : String) (u : User) :
    get_current_user st .expired = .error ⟨401, "Token expired"⟩ ∧
    get_current_user st .invalid = .error ⟨401, "Invalid token"⟩ ∧
    get_current_user st (.payload none) = .error ⟨401, "Invalid token payload"⟩ ∧
    (uid ≠ "" → st.users.find? (fun v => v.id == uid) = none →
      get_current_user st (.payload (some uid)) = .error ⟨401, "User not found"⟩) ∧
    (uid ≠ "" → st.users.find? (fun v => v.id == uid) = some u →
      get_current_user st (.payload (some uid)) = .ok u) := by
  refine ⟨rfl, rfl, rfl, fun hne hfind => ?_, fun hne hfind => ?_⟩ <;>
    simp [get_current_user, pyTruthy, hne, hfind]

/-- C7 witness: a valid subject resolves to the stored record, an unknown
subject gives the 401. -/
theorem resolve_session_contract_witness :
    get_current_user dbVerified (.payload (some "u1")) = .ok aliceVerified ∧
    get_current_user dbVerified (.payload (some "zz")) =
      .error ⟨401, "User not found"⟩ :=
  ⟨(resolve_session_contract dbVerified "u1" aliceVerified).2.2.2.2
      (by decide) (by decide),
   (resolve_session_contract dbVerified "zz" aliceVerified).2.2.2.1
      (by decide) (by decide)⟩

/-- C10: `GET /debug/env` takes no credentials (it is a function of the
process environment alone, so it answers every request), echoes the
configured outbound-email username in clear text, and exposes flags telling
whether the store URL, the email password and the signing secret are set. -/
theorem debug_env_disclosure (e : Env) :
    (debug_env e).email_user = e.email_username ∧
    ((debug_env e).mongo = true ↔ pyTruthy e.mongo_url = true) ∧
    ((debug_env e).email_password = "SET" ↔ pyTruthy e.email_password = true) ∧
    ((debug_env e).secret_key = "SET" ↔ pyTruthy e.secret_key = true) ∧
    (debug_env e).db_name = e.db_name ∧
    (debug_env e).frontend = e.frontend_url := by
  refine ⟨rfl, Iff.rfl, ?_, ?_, rfl, rfl⟩ <;>
    constructor <;> intro h
  · by_contra hF
    simp [debug_env, hF] at h
  · simp [debug_env, h]
  · by_contra hF
    simp [debug_env, hF] at h
  · simp [debug_env, h]


/-- C1: every user record in a store reachable through the workflow
operations satisfies the exactly-one-of invariant: `is_verified` and the
presence of `verification_token` always disagree.  `signup` establishes it
(unverified with a token), `verify_email` preserves it (sets the flag and
nulls the token in the same update), and `resend_verification` preserves it
(it replaces the token only after checking the user is not verified). -/
theorem workflow_user_invariant (st : DB) (h : Reachable st) :
    ∀ u ∈ st.users, userInv u := by
  induction h with
  | init => intro u hu; simp at hu
  | signup_step st e n hp tok uid now _ ih =>
    intro u hu
    rcases hF : st.users.find? (fun v => v.email == e) with _ | w
    · simp only [signup, hF] at hu
      rcases List.mem_append.mp hu with h' | h'
      · exact ih u h'
      · rcases List.mem_singleton.mp h' with rfl
        simp [userInv]
    · simp only [signup, hF] at hu
      exact ih u hu
  | verify_step st t _ ih =>
    intro u hu
    rcases hF : st.users.find? (fun v => v.verification_token == some t) with _ | w
    · simp only [verify_email, hF] at hu
      exact ih u hu
    · simp only [verify_email, hF] at hu
      rcases mem_updateFirst_find hF hu with h' | h'
      · exact ih u h'
      · subst h'
        simp [userInv]
  | resend_step st b tok _ ih =>
    intro u hu
    rcases hT : pyTruthy b with _ | _
    · simp only [resend_verification, hT] at hu
      simp at hu
      exact ih u hu
    · rcases hF : st.users.find? (fun v => v.email == b.getD "") with _ | w
      · simp only [resend_verification, hT, hF] at hu
        simp at hu
        exact ih u hu
      · rcases hV : w.is_verified with _ | _
        · simp only [resend_verification, hT, hF, hV] at hu
          simp at hu
          rcases mem_updateFirst_find hF hu with h' | h'
          · exact ih u h'
          · subst h'
            simp [userInv, hV]
        · simp only [resend_verification, hT, hF, hV] at hu
          simp at hu
          exact ih u hu

/-- C1 witness: the store produced by a concrete `signup` is reachable and
its one user record satisfies the invariant. -/
theorem workflow_user_invariant_witness : userInv aliceUnverified :=
  workflow_user_invariant c5db0
    (Reachable.signup_step ⟨[], []⟩ "a@x" "Alice" "hpw" "t1" "u1" 0 Reachable.init)
    aliceUnverified (by decide)

/-- C5 counterexample: after signup and verification (store `c5db1`), the
single account is verified, yet a `verify_email` request for that account
(presenting its former token `"t1"`) does not short-circuit with an
"already verified" acknowledgement — it produces the error
`400 "Invalid or expired token"`. -/
theorem verify_already_verified_errors :
    (c5db1.users.find? (fun v => v.id == "u1")).map User.is_verified = some true ∧
    (verify_email c5db1 "t1").1 = .error ⟨400, "Invalid or expired token"⟩ := by
  exact ⟨by decide, rfl⟩

/-- C5 amended: a `verify_email` request aimed at an already-verified account
fails with `400 "Invalid or expired token"` (the account's token was nulled
at verification, so no presented token can reach it) and leaves the store
unchanged; the "already verified" short-circuit exists only in
`resend_verification`, which acknowledges with no error and no state
change. -/
theorem already_verified_behavior (st : DB) (e t t2 : String) (u : User)
    (hfind : st.users.find? (fun v => v.email == e) = some u)
    (hver : u.is_verified = true)
    (hnotok : ∀ v ∈ st.users, v.verification_token ≠ some t)
    (hne : e ≠ "") :
    (verify_email st t).1 = .error ⟨400, "Invalid or expired token"⟩ ∧
    (verify_email st t).2 = st ∧
    resend_verification st (some e) t2 = (.ok "Email is already verified", st) := by
  have hfn : st.users.find? (fun v => v.verification_token == some t) = none := by
    rw [List.find?_eq_none]
    intro x hx
    simp [hnotok x hx]
  refine ⟨by simp [verify_email, hfn], by simp [verify_email, hfn], ?_⟩
  simp [resend_verification, pyTruthy, hne, hfind, hver]

/-- C5 amended witness: verified Alice; a verify attempt with her former
token errors, the resend endpoint answers "already verified". -/
theorem already_verified_behavior_witness :
    (verify_email dbVerified "t1").1 = .error ⟨400, "Invalid or expired token"⟩ ∧
    (verify_email dbVerified "t1").2 = dbVerified ∧
    resend_verification dbVerified (some "a@x") "t9" =
      (.ok "Email is already verified", dbVerified) :=
  already_verified_behavior dbVerified "a@x" "t1" "t9" aliceVerified
    (by decide) (by decide) (by decide) (by decide)

/-- C6: for an unverified user holding token `t1`, `resend_verification`
stores the freshly generated token `t2` (fresh means `t2 ≠ t1`, the
idealisation of `secrets.token_urlsafe(32)`), and afterwards verifying with
the original `t1` fails with `400 "Invalid or expired token"`: the stale
link is dead. -/
theorem resend_invalidates_old_token (st : DB) (e t1 t2 : String) (u : User)
    (hfind : st.users.find? (fun v => v.email == e) = some u)
    (hunv : u.is_verified = false)
    (htok : u.verification_token = some t1)
    (hcnt : st.users.countP (fun v => v.verification_token == some t1) ≤ 1)
    (hne : t2 ≠ t1) (heml : e ≠ "") :
    (resend_verification st (some e) t2).1 =
      .ok "Verification email resent successfully" ∧
    (resend_verification st (some e) t2).2.users.find? (fun v => v.email == e) =
      some { u with verification_token := some t2 } ∧
    (verify_email (resend_verification st (some e) t2).2 t1).1 =
      .error ⟨400, "Invalid or expired token"⟩ := by
  have hstate : (resend_verification st (some e) t2).2.users =
      updateFirst (fun v => v.email == e)
        (fun v => { v with verification_token := some t2 }) st.users := by
    simp [resend_verification, pyTruthy, heml, hfind, hunv]
  have hqu : (fun v : User => v.verification_token == some t1) u = true := by
    simp [htok]
  have hnone : (resend_verification st (some e) t2).2.users.find?
      (fun v => v.verification_token == some t1) = none := by
    rw [hstate]
    exact find_q_none_after_updateFirst hfind hqu hcnt (fun x => by simp [hne])
  refine ⟨by simp [resend_verification, pyTruthy, heml, hfind, hunv], ?_, ?_⟩
  · rw [hstate]
    exact find_p_updateFirst hfind (fun x hx => hx)
  · generalize hX : (resend_verification st (some e) t2).2 = st2
    rw [hX] at hnone
    simp [verify_email, hnone]

/-- C6 witness: unverified Alice with token `"t1"`; resending with fresh
`"t9"` succeeds, stores `"t9"`, and `"t1"` no longer verifies. -/
theorem resend_invalidates_old_token_witness :
    (resend_verification dbUnverified (some "a@x") "t9").1 =
      .ok "Verification email resent successfully" ∧
    (resend_verification dbUnverified (some "a@x") "t9").2.users.find?
      (fun v => v.email == "a@x") =
      some { aliceUnverified with verification_token := some "t9" } ∧
    (verify_email (resend_verification dbUnverified (some "a@x") "t9").2 "t1").1 =
      .error ⟨400, "Invalid or expired token"⟩ :=
  resend_invalidates_old_token dbUnverified "a@x" "t1" "t9" aliceUnverified
    (by decide) (by decide) (by decide) (by decide) (by decide) (by decide)

/-- C8: a PUT or DELETE on a media item owned by `uid1`, issued by a distinct
authenticated user `uid2`, fails with `404 "Media not found"` — byte-for-byte
the failure a nonexistent id (`mid2`) gets — and leaves the store unchanged.
`huniq` is the uniqueness of the generated uuid ids. -/
theorem media_cross_user_isolation (st : DB) (mid mid2 uid1 uid2 : String)
    (m : MediaItem) (upd : MediaItemUpdate) (now : Nat)
    (hm : st.media.find? (fun x => x.id == mid) = some m)
    (hown : m.user_id = uid1)
    (hne : uid2 ≠ uid1)
    (huniq : st.media.countP (fun x => x.id == mid) ≤ 1)
    (habs : st.media.find? (fun x => x.id == mid2) = none) :
    (update_media st mid upd uid2 now).1 = .error ⟨404, "Media not found"⟩ ∧
    (update_media st mid upd uid2 now).2 = st ∧
    (delete_media st mid uid2).1 = .error ⟨404, "Media not found"⟩ ∧
    (delete_media st mid uid2).2 = st ∧
    (update_media st mid2 upd uid2 now).1 = (update_media st mid upd uid2 now).1 ∧
    (delete_media st mid2 uid2).1 = (delete_media st mid uid2).1 := by
  have hcn : st.media.find? (fun x => x.id == mid && x.user_id == uid2) = none :=
    find_conj_none hm huniq (by simp [hown, Ne.symm hne])
  have hcn2 : st.media.find? (fun x => x.id == mid2 && x.user_id == uid2) = none :=
    find_conj_none_of_none habs
  refine ⟨?_, ?_, ?_, ?_, ?_, ?_⟩ <;>
    simp [update_media, delete_media, hcn, hcn2]

/-- C8 witness: Alice's item `"m1"`; user `"u2"` gets the same 404 on it as
on the nonexistent id `"zz"`, and the store is untouched. -/
theorem media_cross_user_isolation_witness :
    (update_media dbMedia "m1" updSample "u2" 5).1 =
      .error ⟨404, "Media not found"⟩ ∧
    (update_media dbMedia "m1" updSample "u2" 5).2 = dbMedia ∧
    (delete_media dbMedia "m1" "u2").1 = .error ⟨404, "Media not found"⟩ ∧
    (delete_media dbMedia "m1" "u2").2 = dbMedia ∧
    (update_media dbMedia "zz" updSample "u2" 5).1 =
      (update_media dbMedia "m1" updSample "u2" 5).1 ∧
    (delete_media dbMedia "zz" "u2").1 = (delete_media dbMedia "m1" "u2").1 :=
  media_cross_user_isolation dbMedia "m1" "zz" "u1" "u2" itemU1 updSample 5
    (by decide) (by decide) (by decide) (by decide) (by decide)

/-- C9: an owner's partial update returns (and stores) an item in which every
supplied field carries the supplied value, `updated_at` is refreshed to the
time of the update, every unsupplied field keeps its previous value, and
`id`, `user_id` and `created_at` — absent from `MediaItemUpdate` — are
unchanged. -/
theorem update_media_partial_frame (st : DB) (mid uid : String) (m : MediaItem)
    (upd : MediaItemUpdate) (now : Nat)
    (hm : st.media.find? (fun x => x.id == mid) = some m)
    (hown : m.user_id = uid) :
    ∃ m2, (update_media st mid upd uid now).1 = .ok m2 ∧
      m2.id = m.id ∧ m2.user_id = m.user_id ∧ m2.created_at = m.created_at ∧
      m2.updated_at = now ∧
      (upd.title = none → m2.title = m.title) ∧
      (∀ v, upd.title = some v → m2.title = v) ∧
      (upd.type = none → m2.type = m.type) ∧
      (∀ v, upd.type = some v → m2.type = v) ∧
      (upd.status = none → m2.status = m.status) ∧
      (∀ v, upd.status = some v → m2.status = v) ∧
      (upd.current = none → m2.current = m.current) ∧
      (∀ v, upd.current = some v → m2.current = v) ∧
      (upd.total = none → m2.total = m.total) ∧
      (∀ v, upd.total = some v → m2.total = v) := by
  have hid := List.find?_some hm
  have hconj : st.media.find? (fun x => x.id == mid && x.user_id == uid) = some m :=
    find_conj_of_find hm (by simp [hown])
  have hpm : (fun x : MediaItem => x.id == mid && x.user_id == uid) m = true := by
    simp only [Bool.and_eq_true]
    exact ⟨hid, by simp [hown]⟩
  have hrefetch : (updateFirst (fun x => x.id == mid && x.user_id == uid)
      (fun x => applyUpdate x upd now) st.media).find? (fun x => x.id == mid) =
      some (applyUpdate m upd now) :=
    refetch_updateFirst hm hpm
      (fun x hx => by
        simp only [Bool.and_eq_true] at hx
        exact hx.1)
      hid
  refine ⟨applyUpdate m upd now, ?_, rfl, rfl, rfl, rfl, ?_, ?_, ?_, ?_, ?_,
    ?_, ?_, ?_, ?_, ?_⟩
  · simp [update_media, hconj, hrefetch]
  all_goals first
    | (intro h; simp [applyUpdate, h])
    | (intro v h; simp [applyUpdate, h])

/-- C9 witness: Alice updates `"m1"` supplying only `title` and `status`; the
returned item keeps everything else and refreshes `updated_at` to 5. -/
theorem update_media_partial_frame_witness :
    ∃ m2, (update_media dbMedia "m1" updSample "u1" 5).1 = .ok m2 ∧
      m2.id = itemU1.id ∧ m2.user_id = itemU1.user_id ∧
      m2.created_at = itemU1.created_at ∧
      m2.updated_at = 5 ∧
      (updSample.title = none → m2.title = itemU1.title) ∧
      (∀ v, updSample.title = some v → m2.title = v) ∧
      (updSample.type = none → m2.type = itemU1.type) ∧
      (∀ v, updSample.type = some v → m2.type = v) ∧
      (updSample.status = none → m2.status = itemU1.status) ∧
      (∀ v, updSample.status = some v → m2.status = v) ∧
      (updSample.current = none → m2.current = itemU1.current) ∧
      (∀ v, updSample.current = some v → m2.current = v) ∧
      (updSample.total = none → m2.total = itemU1.total) ∧
      (∀ v, updSample.total = some v → m2.total = v) :=
  update_media_partial_frame dbMedia "m1" "u1" itemU1 updSample 5
    (by decide) (by decide)

end MediaTracker
